import Mathlib

/-!
Verification development for the AMS dispatch-modeling core
(`ams/core/model.py`, `ams/core/param.py`, `ams/core/matprocessor.py`,
`ams/routines/dcpf.py`, `ams/routines/acopf.py`, `ams/routines/uc.py`).

Shallow embedding conventions:
* external device identifiers (`idx`) are modelled as naturals; the
  `int(...)` coercion the source applies to integral identifiers is then
  the identity;
* numeric device values (Python floats / numpy entries) are modelled as
  rationals;
* numpy 1-D arrays and Python lists are modelled as `List ℚ`;
* Python exceptions are modelled with `Except String`;
* the `uid` dictionary of a collection (identifier → dense position,
  insertion-ordered, duplicates refused at registration) is modelled by
  positional lookup in the registration list.
-/

namespace AMS

/-! ## Identifier index (`ams/core/model.py`) -/

/-- The registration list of external identifiers of one collection,
in insertion order.  The `uid` dict of the source maps each identifier
to its position in this list. -/
abbrev Reg := List Nat

/-- Source `Model._one_idx2uid`: raise `KeyError` when the identifier is
not registered, otherwise return its dense position (`self.uid[idx]`). -/
def oneIdx2uid (reg : Reg) (a : Nat) : Except String Nat :=
  if a ∈ reg then .ok (reg.indexOf a)
  else .error "KeyError: device not exist with this idx"

/-- Argument shapes accepted by `Model.idx2uid`: the Python `None`, a
scalar identifier, a flat sequence whose entries may be `None`, or a
nested sequence (list of lists, as produced by per-zone groupings). -/
inductive IdxArg where
  | noneA : IdxArg
  | scalar : Nat → IdxArg
  | seq : List (Option Nat) → IdxArg
  | nested : List (List (Option Nat)) → IdxArg
deriving DecidableEq, Repr

/-- Result shapes of `Model.idx2uid`. -/
inductive UidRes where
  | noneR : UidRes
  | one : Nat → UidRes
  | many : List (Option Nat) → UidRes
deriving DecidableEq, Repr

/-- The list comprehension of `Model.idx2uid`'s sequence branch:
`[self._one_idx2uid(i) if i is not None else None for i in idx]`,
with the first raised `KeyError` propagating. -/
def seqResolve (reg : Reg) : List (Option Nat) → Except String (List (Option Nat))
  | [] => .ok []
  | none :: rest =>
      match seqResolve reg rest with
      | .ok rest' => .ok (none :: rest')
      | .error e => .error e
  | some a :: rest =>
      match oneIdx2uid reg a with
      | .ok u =>
          match seqResolve reg rest with
          | .ok rest' => .ok (some u :: rest')
          | .error e => .error e
      | .error e => .error e

/-- Source `Model.idx2uid`: `None` is returned verbatim; a scalar is
resolved through `_one_idx2uid`; a flat sequence is resolved entrywise
with `None` entries passed through; a nested sequence is flattened one
level (`list_flatten` of the external utility layer joins the sublists)
and then resolved like a flat sequence. -/
def idx2uid (reg : Reg) : IdxArg → Except String UidRes
  | .noneA => .ok .noneR
  | .scalar a =>
      match oneIdx2uid reg a with
      | .ok u => .ok (.one u)
      | .error e => .error e
  | .seq l =>
      match seqResolve reg l with
      | .ok us => .ok (.many us)
      | .error e => .error e
  | .nested ls =>
      match seqResolve reg ls.flatten with
      | .ok us => .ok (.many us)
      | .error e => .error e

/-! ## Device collection accessor (`Model.get`) -/

/-- Storage of one attribute array: either still a plain Python list, or
already converted to a numpy array by `list2array` / `to_array`.
`Model.get` branches on `isinstance(..., list)`. -/
inductive AttrStore where
  | plist : List ℚ → AttrStore
  | ndarray : List ℚ → AttrStore
deriving DecidableEq, Repr

/-- Values returned by `Model.get`: a scalar, a 1-D array, or the 2-D
array produced when a numpy array is indexed with `None`
(`np.newaxis`). -/
inductive GetRes where
  | scalar : ℚ → GetRes
  | arr : List ℚ → GetRes
  | arr2 : List (List ℚ) → GetRes
deriving DecidableEq, Repr

/-- Indexing a Python list with an integer position; raises `IndexError`
when out of range. -/
def listAt (l : List ℚ) (i : Nat) : Except String ℚ :=
  match l.get? i with
  | some x => .ok x
  | none => .error "IndexError: list index out of range"

/-- The list comprehension of `Model.get`'s list branch:
`[arr[i] if i is not None else default for i in uid]`. -/
def listPick (l : List ℚ) (dflt : ℚ) : List (Option Nat) → Except String (List ℚ)
  | [] => .ok []
  | some i :: rest =>
      match listAt l i with
      | .ok x =>
          match listPick l dflt rest with
          | .ok r => .ok (x :: r)
          | .error e => .error e
      | .error e => .error e
  | none :: rest =>
      match listPick l dflt rest with
      | .ok r => .ok (dflt :: r)
      | .error e => .error e

/-- Numpy fancy indexing of a 1-D array by a list of positions.  A `None`
entry in an integer index list is rejected by numpy
(`IndexError: only integers ... are valid indices`). -/
def fancyIndex (l : List ℚ) : List (Option Nat) → Except String (List ℚ)
  | [] => .ok []
  | some i :: rest =>
      match listAt l i with
      | .ok x =>
          match fancyIndex l rest with
          | .ok r => .ok (x :: r)
          | .error e => .error e
      | .error e => .error e
  | none :: _ => .error "IndexError: only integers are valid indices"

/-- Source `Model.get`: resolve `idx` through `idx2uid`; when the
attribute is stored as a plain list and the resolved positions form a
sequence, enforce `allow_none` (raising `KeyError` when a `None`
position is present and disallowed) and substitute `default` for `None`
positions; in every other case fall through to direct indexing of the
stored array (`self.__dict__[src].__dict__[attr][uid]`). -/
def modelGet (reg : Reg) (store : AttrStore) (idx : IdxArg)
    (allow_none : Bool) (dflt : ℚ) : Except String GetRes :=
  match idx2uid reg idx with
  | .error e => .error e
  | .ok uid =>
      match store, uid with
      | .plist l, .many us =>
          if !allow_none && decide (none ∈ us) then
            .error "KeyError: None not allowed in uid or idx"
          else
            match listPick l dflt us with
            | .ok vals => .ok (.arr vals)
            | .error e => .error e
      | .plist l, .one u =>
          match listAt l u with
          | .ok x => .ok (.scalar x)
          | .error e => .error e
      | .plist _, .noneR => .error "TypeError: list indices must be integers"
      | .ndarray l, .many us =>
          match fancyIndex l us with
          | .ok vals => .ok (.arr vals)
          | .error e => .error e
      | .ndarray l, .one u =>
          match listAt l u with
          | .ok x => .ok (.scalar x)
          | .error e => .error e
      | .ndarray l, .noneR => .ok (.arr2 [l])

/-! ## Sensitivity-matrix partition (`ams/core/matprocessor.py`, `MatProcessor.make`) -/

/-- Resolution of a flat list of identifiers, as `Bus.idx2uid(regBus)`
performs it entrywise through `_one_idx2uid`. -/
def busIdx2uid (reg : Reg) : List Nat → Except String (List Nat)
  | [] => .ok []
  | a :: rest =>
      match oneIdx2uid reg a with
      | .ok u =>
          match busIdx2uid reg rest with
          | .ok rest' => .ok (u :: rest')
          | .error e => .error e
      | .error e => .error e

/-- Source `MatProcessor.make`, column-index part: `regBus` is the list
of generator-hosting bus identifiers in `StaticGen` order (one entry per
generator; the `int(...)` coercion is the identity on our natural-number
identifiers); `redBus` keeps the buses of the bus table, in bus-table
order, that do not appear among the generator buses; both are resolved
to dense positions through the bus collection's `idx2uid`.  The returned
pair gives the column indices of the two blocks `PTDF[:, uid_regBus]`
and `PTDF[:, uid_redBus]`. -/
def makePartition (allBus genBus : List Nat) : Except String (List Nat × List Nat) :=
  let regBus := genBus
  let redBus := allBus.filter (fun b => !(decide (b ∈ genBus)))
  match busIdx2uid allBus regBus with
  | .error e => .error e
  | .ok uidReg =>
      match busIdx2uid allBus redBus with
      | .error e => .error e
      | .ok uidRed => .ok (uidReg, uidRed)

/-- Numpy column slicing `M[:, uids]`: the matrix is represented by its
column map, and slicing selects the listed columns in order. -/
def colSlice (cols : Nat → List ℚ) (uids : List Nat) : List (List ℚ) :=
  uids.map cols

/-! ## Parameter reference (`ams/core/param.py`, `RParam`) -/

/-- A device collection as seen by a live parameter view: its attribute
arrays by source-attribute name (`getattr(owner, src).v`). -/
structure Collection where
  attrs : String → List ℚ

/-- Modelled from the spec: the Device/Group framework (the `ams` group
classes, not under `src/`) resolves a group read
`owner.get(src=..., idx=owner.get_idx())` over the group's full
identifier list; per spec sections 4.3 and 6 the aggregation contract is
to concatenate the member collections' resolved values in
group-registration order. -/
structure Group where
  members : List Collection

/-- Modelled from the spec: group aggregation concatenates member
collections' arrays in group-registration order. -/
def Group.getConcat (g : Group) (src : String) : List ℚ :=
  (g.members.map (fun c => c.attrs src)).flatten

/-- State of an `RParam` at read time: its source-attribute name, the
`is_set` flag with the externally supplied `_v`, the `is_group` flag,
and the owner (group or single collection). -/
structure RParam where
  src : String
  is_set : Bool
  vSet : List ℚ
  is_group : Bool
  ownerGroup : Group
  ownerModel : Collection

/-- Source `RParam.v`: if the value was set externally return `_v`;
else if the reference is a group reference delegate to the group's `get`
over the group's whole identifier list; else read attribute `v` of the
owner's source parameter. -/
def RParam.v (p : RParam) : List ℚ :=
  if p.is_set then p.vSet
  else if p.is_group then p.ownerGroup.getConcat p.src
  else p.ownerModel.attrs p.src

/-! ## Routine pipeline (`ams/routines/dcpf.py`, `ams/routines/acopf.py`) -/

/-- The double-precision constant `pi / 180` (`andes.shared.deg2rad`)
used to convert the solver's bus angles from degrees to radians,
written as the rational value of the float. -/
def deg2rad : ℚ := 17453292519943295 / 1000000000000000000

/-- The PYPOWER result fields read by `unpack`: the base power
`res['baseMVA']`, bus-table columns 7 and 8 (voltage magnitude, and
voltage angle in degrees), generator-table columns 1 and 2 (active and
reactive power, megawatt base, in solver output order), the success
flag, and the objective value `res['f']` used by the ACOPF routine. -/
structure SolverOut where
  baseMVA : ℚ
  busVm : List ℚ
  busVa : List ℚ
  genP : List ℚ
  genQ : List ℚ
  success : Bool
  f : ℚ
deriving DecidableEq, Repr

/-- The device-collection arrays written by `unpack`, plus the slack
generator count `system.Slack.n` and the process-wide
"most recently solved routine" pointer `system.recent`. -/
structure SysState where
  busV : List ℚ
  busA : List ℚ
  pvP : List ℚ
  pvQ : List ℚ
  slackP : List ℚ
  slackQ : List ℚ
  slackN : Nat
  recent : Option String
deriving DecidableEq, Repr

/-- Device-write block of `DCPFlowBase.unpack` and `ACOPFBase.unpack`
(the two are identical): bus voltage magnitude is copied verbatim, bus
angle is converted from degrees to radians, and the generator array is
split at row `Slack.n` — the first `Slack.n` rows (divided by the base
power) go to the Slack collection, the remaining rows to the PV
collection. -/
def unpackDevices (res : SolverOut) (s : SysState) : SysState :=
  { s with
    busV := res.busVm
    busA := res.busVa.map (fun x => x * deg2rad)
    pvP := (res.genP.drop s.slackN).map (fun x => x / res.baseMVA)
    pvQ := (res.genQ.drop s.slackN).map (fun x => x / res.baseMVA)
    slackP := (res.genP.take s.slackN).map (fun x => x / res.baseMVA)
    slackQ := (res.genQ.take s.slackN).map (fun x => x / res.baseMVA) }

/-- What `getattr(system, name)` can yield for a routine variable's
`owner_name`: a Model instance (which has a `group` attribute naming its
group), a Group instance (which has `get_idx`), or an object with
neither. -/
inductive Comp where
  | model (grp : String)
  | group
  | plain
deriving DecidableEq, Repr

/-- A declared routine variable as seen by the unpack loop: its routine
name, its `owner_name`, and its optional source attribute `src`. -/
structure VarDecl where
  name : String
  owner_name : String
  src : Option String
deriving DecidableEq, Repr

/-- Variable write-back loop of `DCPFlowBase.unpack` (and the identical
loop of `ACOPFBase.unpack`): for each declared variable, fetch the owner
with `getattr(system, owner_name)` — an absent attribute raises
`AttributeError`; skip silently when `src` is `None`; when the owner is
a Model, look up its group on the system (again a raising `getattr`) and
write the variable from the owner's values; when the owner is a Group,
write likewise; otherwise log a warning and skip the variable.  `vals`
abstracts the external `owner.get(src=..., attr='v', idx=idx)` read.
Returns the written `(name, value)` pairs and the warnings, in loop
order. -/
def unpackVars (comps : List (String × Comp)) (vals : String → String → List ℚ) :
    List VarDecl → Except String (List (String × List ℚ) × List String)
  | [] => .ok ([], [])
  | v :: rest =>
      match comps.lookup v.owner_name with
      | none => .error ("AttributeError: system has no attribute " ++ v.owner_name)
      | some comp =>
          match v.src with
          | none => unpackVars comps vals rest
          | some srcName =>
              match comp with
              | .model grp =>
                  match comps.lookup grp with
                  | none => .error ("AttributeError: system has no attribute " ++ grp)
                  | some _ =>
                      match unpackVars comps vals rest with
                      | .ok (ws, warns) =>
                          .ok ((v.name, vals v.owner_name srcName) :: ws, warns)
                      | .error e => .error e
              | .group =>
                  match unpackVars comps vals rest with
                  | .ok (ws, warns) =>
                      .ok ((v.name, vals v.owner_name srcName) :: ws, warns)
                  | .error e => .error e
              | .plain =>
                  match unpackVars comps vals rest with
                  | .ok (ws, warns) =>
                      .ok (ws, ("skip unpacking " ++ v.name) :: warns)
                  | .error e => .error e

/-- Source `DCPFlowBase.unpack`: device writes, then the variable loop,
then the update of the system's "most recently solved routine"
pointer. -/
def DCPF_unpack (className : String) (comps : List (String × Comp))
    (vals : String → String → List ℚ) (vars : List VarDecl)
    (res : SolverOut) (s : SysState) :
    Except String (SysState × List (String × List ℚ) × List String) :=
  let s1 := unpackDevices res s
  match unpackVars comps vals vars with
  | .ok (ws, warns) => .ok ({ s1 with recent := some className }, ws, warns)
  | .error e => .error e

/-- Source `ACOPFBase.unpack`: identical to the DC version, and it
additionally records the solver objective `res['f']`, returned here
alongside the new system state. -/
def ACOPF_unpack (className : String) (comps : List (String × Comp))
    (vals : String → String → List ℚ) (vars : List VarDecl)
    (res : SolverOut) (s : SysState) :
    Except String (SysState × ℚ × List (String × List ℚ) × List String) :=
  let s1 := unpackDevices res s
  match unpackVars comps vals vars with
  | .ok (ws, warns) => .ok ({ s1 with recent := some className }, res.f, ws, warns)
  | .error e => .error e

/-- The routine attributes touched by `run`: the setup flag, the 0/1
exit code, the elapsed-seconds record, the ACOPF objective value, and
the shared system state.  `setupCalls` counts `setup()` invocations so
the conditional-setup behaviour is observable. -/
structure Routine where
  is_setup : Bool
  setupCalls : Nat
  exit_code : Nat
  exec_time : ℚ
  objv : ℚ
  sys : SysState
deriving DecidableEq, Repr

/-- Modelled from the spec: `RoutineModel.setup` (in
`ams/routines/routine.py`, not under `src/`) resolves the declared
bindings and transitions the routine to the SETUP state, idempotently;
here it marks the routine as set up and counts the invocation. -/
def setupR (r : Routine) : Routine :=
  { r with is_setup := true, setupCalls := r.setupCalls + 1 }

/-- Source `DCPFlowBase.run`: `setup()` only if `is_setup` is false;
`solve()` (the external adapter's answer is the parameter `res`, whose
`success` flag is the solver's report); `exit_code` is 0 on reported
success and 1 otherwise; the elapsed time `t` is recorded into
`exec_time`; `unpack` runs unconditionally; the function returns `True`
when `exit_code == 0` and `False` otherwise. -/
def DCPF_run (comps : List (String × Comp)) (vals : String → String → List ℚ)
    (vars : List VarDecl) (res : SolverOut) (t : ℚ) (r : Routine) :
    Except String (Routine × Bool) :=
  let r1 := if r.is_setup then r else setupR r
  let r2 := { r1 with exit_code := if res.success then 0 else 1, exec_time := t }
  match DCPF_unpack "DCPF" comps vals vars res r2.sys with
  | .ok (sys', _, _) =>
      let r3 := { r2 with sys := sys' }
      .ok (r3, decide (r3.exit_code = 0))
  | .error e => .error e

/-- Source `ACOPFBase.run`: `setup()` only if needed; `exit_code` is
`int(1 - res['success'])`; the elapsed time is recorded; `unpack` runs
unconditionally (recording the objective); the function returns the
exit code itself. -/
def ACOPF_run (comps : List (String × Comp)) (vals : String → String → List ℚ)
    (vars : List VarDecl) (res : SolverOut) (t : ℚ) (r : Routine) :
    Except String (Routine × Nat) :=
  let r1 := if r.is_setup then r else setupR r
  let r2 := { r1 with exit_code := if res.success then 0 else 1, exec_time := t }
  match ACOPF_unpack "ACOPF" comps vals vars res r2.sys with
  | .ok (sys', fval, _, _) =>
      let r3 := { r2 with sys := sys', objv := fval }
      .ok (r3, r3.exit_code)
  | .error e => .error e

/-! ## Array identity (`Model.list2array` contract versus `unpack` writes) -/

/-- A heap of numpy buffers: cell contents by handle, plus the next
unused handle.  Attribute slots and borrowed views hold handles, so
Python object identity is observable. -/
structure Heap where
  mem : Nat → List ℚ
  fresh : Nat

/-- Dereference a handle. -/
def Heap.read (h : Heap) (hd : Nat) : List ℚ := h.mem hd

/-- Overwrite the buffer at an existing handle (`arr[:] = new`). -/
def Heap.writeInPlace (h : Heap) (hd : Nat) (v : List ℚ) : Heap :=
  { h with mem := fun k => if k = hd then v else h.mem k }

/-- Allocate a fresh buffer (the solver result slice is a new numpy
array object). -/
def Heap.alloc (h : Heap) (v : List ℚ) : Heap × Nat :=
  ({ mem := fun k => if k = h.fresh then v else h.mem k, fresh := h.fresh + 1 }, h.fresh)

/-- An attribute slot: the current handle of an `Algeb`'s `.v` array
(for example `system.Bus.v.v`). -/
structure AttrSlot where
  handle : Nat
deriving DecidableEq, Repr

/-- Source `DCPFlowBase.unpack` device writes, for example
`system.Bus.v.v = res['bus'][:, 7]`: a plain Python attribute
assignment REBINDS the attribute to the freshly built result array
(there is no in-place `[:]` write in `unpack`), so the slot's handle
moves to a new heap cell. -/
def unpackAttrAssign (h : Heap) (_slot : AttrSlot) (v : List ℚ) : Heap × AttrSlot :=
  let (h2, nh) := h.alloc v
  (h2, ⟨nh⟩)

/-- The in-place write contract documented by `Model.list2array`
("Value attribute arrays should remain in the same address afterwards.
Namely, all assignments to value array should be operated in place
(e.g., with [:]).'): the buffer at the slot's existing handle is
overwritten and the handle is preserved. -/
def inPlaceAssign (h : Heap) (slot : AttrSlot) (v : List ℚ) : Heap × AttrSlot :=
  (h.writeInPlace slot.handle v, slot)

/-- A live `RParam.v` read of a bound attribute
(`getattr(self.owner, self.src)` then `.v`): fetch the owner's CURRENT
handle for the attribute, then dereference. -/
def rparamHeapRead (h : Heap) (slot : AttrSlot) : List ℚ := h.read slot.handle

/-- A borrowed view captured before a write: it dereferences the handle
captured at borrow time, not the owner's current one. -/
def borrowedRead (h : Heap) (captured : Nat) : List ℚ := h.read captured

/-! ## Unit-commitment initial guess (`ams/routines/uc.py`, `UCModel._initial_guess`) -/

/-- One PV generator row as assembled by `_initial_guess`: the device
identifier, the commitment status `u`, capacity `Sn`, cost coefficients
`c2`, `c1`, `c0` (obtained through `GCost.find_idx(keys='gen', ...)`),
and the untouched remaining attributes `bus` and `zone`. -/
structure GenRow where
  idx : Nat
  u : ℚ
  Sn : ℚ
  c2 : ℚ
  c1 : ℚ
  c0 : ℚ
  bus : Nat
  zone : Nat
deriving DecidableEq, Repr

/-- The weighted cost-and-capacity score
`0.4*c2 + 0.3*c1 + 0.2*c0 + 0.1*Sn`. -/
def wsum (g : GenRow) : ℚ :=
  4/10 * g.c2 + 3/10 * g.c1 + 2/10 * g.c0 + 1/10 * g.Sn

/-- Ordering of generator rows by ascending score, the sort key of
`gen.sort_values(by='wsum', ascending=True)`. -/
def wLE (a b : GenRow) : Prop := wsum a ≤ wsum b

instance : DecidableRel wLE :=
  fun a b => inferInstanceAs (Decidable (wsum a ≤ wsum b))

instance : IsTotal GenRow wLE := ⟨fun a b => le_total (wsum a) (wsum b)⟩

instance : IsTrans GenRow wLE := ⟨fun _ _ _ hab hbc => le_trans hab hbc⟩

/-- The system state `_initial_guess` can touch: the PV generator rows,
the Slack generator rows (part of the `StaticGen` group targeted by
`set`), and a stand-in for every other attribute array of the system. -/
structure UCSys where
  pv : List GenRow
  slack : List GenRow
  othersLoad : List ℚ
deriving DecidableEq, Repr

/-- The generator table sorted by ascending weighted score
(`gen.sort_values(by='wsum', ascending=True)`). -/
def ucSorted (s : UCSys) : List GenRow := s.pv.insertionSort wLE

/-- The number of generators turned off, `int(0.3 * len(priority))`. -/
def ucK (s : UCSys) : Nat := 3 * s.pv.length / 10

/-- The identifiers selected to be turned off:
`priority[0 : int(0.3*len(priority))]`. -/
def ucChosen (s : UCSys) : List Nat :=
  ((ucSorted s).take (ucK s)).map (fun g => g.idx)

/-- The group write `StaticGen.set(src='u', idx=g_idx, value=zeros)`:
set `u` to zero on exactly the devices whose identifier is listed,
leaving every other field of every row unchanged. -/
def staticGenSetU0 (rows : List GenRow) (gIdx : List Nat) : List GenRow :=
  rows.map (fun g => if g.idx ∈ gIdx then { g with u := 0 } else g)

/-- Source `UCModel._initial_guess`: if any PV generator is already off
(`(ug0 == 0).any()`) return `True` with no modification; otherwise sort
the PV generators by ascending weighted score, pick the first
`int(0.3*n)` identifiers, and set `u` to zero on those devices of the
`StaticGen` group, returning `True`. -/
def initialGuess (s : UCSys) : UCSys × Bool :=
  if s.pv.any (fun g => decide (g.u = 0)) then (s, true)
  else
    let gIdx := ucChosen s
    ({ s with pv := staticGenSetU0 s.pv gIdx,
              slack := staticGenSetU0 s.slack gIdx }, true)

/-! ## Helper lemmas -/

instance {ε α : Type} [DecidableEq ε] [DecidableEq α] : DecidableEq (Except ε α) :=
  fun x y =>
    match x, y with
    | .ok a, .ok b =>
        if h : a = b then .isTrue (by rw [h])
        else .isFalse (fun hh => h (Except.ok.inj hh))
    | .error e, .error f =>
        if h : e = f then .isTrue (by rw [h])
        else .isFalse (fun hh => h (Except.error.inj hh))
    | .ok _, .error _ => .isFalse (fun hh => Except.noConfusion hh)
    | .error _, .ok _ => .isFalse (fun hh => Except.noConfusion hh)

theorem oneIdx2uid_ok {reg : Reg} {a : Nat} (h : a ∈ reg) :
    oneIdx2uid reg a = .ok (reg.indexOf a) := by
  simp [oneIdx2uid, h]

theorem seqResolve_ok {reg : Reg} {l : List (Option Nat)}
    (h : ∀ a : Nat, some a ∈ l → a ∈ reg) :
    seqResolve reg l = .ok (l.map (Option.map (fun a => reg.indexOf a))) := by
  induction l with
  | nil => rfl
  | cons x rest ih =>
    have hrest : ∀ a : Nat, some a ∈ rest → a ∈ reg :=
      fun a ha => h a (List.mem_cons_of_mem _ ha)
    cases x with
    | none => simp [seqResolve, ih hrest]
    | some a =>
      have ha : a ∈ reg := h a (List.mem_cons_self _ _)
      simp [seqResolve, oneIdx2uid_ok ha, ih hrest]

theorem listAt_ok {l : List ℚ} {i : Nat} (h : i < l.length) :
    listAt l i = .ok (l.getD i 0) := by
  simp [listAt, List.get?_eq_getElem?, List.getElem?_eq_getElem h,
    List.getD_eq_getElem?_getD, Option.getD]

/-! ## C4 — order- and cardinality-preserving identifier resolution -/

/-- C4: `Model.idx2uid` maps a registered scalar to its single dense
position; a flat sequence of registered identifiers (possibly with
`None` holes and with repeats) to the entrywise positions — the same
length, the same order, duplicates preserved, since the output is
exactly the entrywise image of the input; and a nested list of lists is
resolved by first flattening one level. -/
theorem idx2uid_order_preserving (reg : Reg) (a : Nat) (l : List (Option Nat))
    (ls : List (List (Option Nat)))
    (ha : a ∈ reg) (hl : ∀ b : Nat, some b ∈ l → b ∈ reg) :
    idx2uid reg (.scalar a) = .ok (.one (reg.indexOf a)) ∧
    idx2uid reg (.seq l) = .ok (.many (l.map (Option.map (fun b => reg.indexOf b)))) ∧
    (l.map (Option.map (fun b => reg.indexOf b))).length = l.length ∧
    idx2uid reg (.nested ls) = idx2uid reg (.seq ls.flatten) := by
  refine ⟨?_, ?_, ?_, ?_⟩
  · simp [idx2uid, oneIdx2uid_ok ha]
  · simp [idx2uid, seqResolve_ok hl]
  · simp
  · rfl

/-- C4 witness: Scenario A identifiers `[101, 102, 103]`: a scalar, a
flat sequence with a repeat and a hole, and a nested sequence. -/
theorem idx2uid_order_preserving_spot :
    idx2uid [101, 102, 103] (.scalar 102) = .ok (.one 1) ∧
    idx2uid [101, 102, 103] (.seq [some 103, some 101, some 103, none]) =
      .ok (.many [some 2, some 0, some 2, none]) ∧
    idx2uid [101, 102, 103] (.nested [[some 103, some 101], [some 102]]) =
      idx2uid [101, 102, 103] (.seq [some 103, some 101, some 102]) := by
  have h := idx2uid_order_preserving [101, 102, 103] 102
    [some 103, some 101, some 103, none] [[some 103, some 101], [some 102]]
    (by decide) (by intro b hb; simp at hb ⊢; omega)
  exact ⟨h.1.trans (by decide), h.2.1.trans (by decide), h.2.2.2.trans (by decide)⟩

/-! ## C9 — resolving `None` is a verbatim no-op, distinct from not-found -/

/-- C9: `Model.idx2uid` returns `None` verbatim for the input `None`
(no exception), while an unknown identifier raises `KeyError`; the
accessor layer (`Model.get`) is what later decides whether a `None`
position is acceptable. -/
theorem idx2uid_none_verbatim (reg : Reg) (a : Nat) (h : ¬ a ∈ reg) :
    idx2uid reg .noneA = .ok .noneR ∧
    idx2uid reg (.scalar a) = .error "KeyError: device not exist with this idx" := by
  refine ⟨rfl, ?_⟩
  simp [idx2uid, oneIdx2uid, h]

/-- C9 witness: registered buses `[101, 102, 103]`, unknown identifier
`999`. -/
theorem idx2uid_none_verbatim_spot :
    idx2uid [101, 102, 103] .noneA = .ok .noneR ∧
    idx2uid [101, 102, 103] (.scalar 999) =
      .error "KeyError: device not exist with this idx" :=
  idx2uid_none_verbatim [101, 102, 103] 999 (by decide)

/-! ## C5 — `allow_none` handling of the accessor -/

theorem listPick_map_ok (l : List ℚ) (dflt : ℚ) (reg : Reg)
    (entries : List (Option Nat))
    (hreg : ∀ b : Nat, some b ∈ entries → b ∈ reg)
    (hlen : reg.length ≤ l.length) :
    listPick l dflt (entries.map (Option.map (fun b => reg.indexOf b))) =
      .ok (entries.map (fun o => match o with
        | some b => l.getD (reg.indexOf b) 0
        | none => dflt)) := by
  induction entries with
  | nil => rfl
  | cons x rest ih =>
    have hrest : ∀ b : Nat, some b ∈ rest → b ∈ reg :=
      fun b hb => hreg b (List.mem_cons_of_mem _ hb)
    cases x with
    | none => simp [listPick, ih hrest]
    | some b =>
      have hb : b ∈ reg := hreg b (List.mem_cons_self _ _)
      have hlt : reg.indexOf b < l.length :=
        lt_of_lt_of_le (List.indexOf_lt_length.mpr hb) hlen
      simp [listPick, listAt_ok hlt, ih hrest]

/-- C5, amended: for an attribute still stored as a plain Python list,
`Model.get` with `allow_none=False` raises the `KeyError` condition as
soon as a `None` entry is present among the resolved positions, and
with `allow_none=True` it substitutes `default` for exactly the `None`
entries, resolving every registered identifier to its stored value.
(The original claim fails when the attribute has already been converted
to a numpy array: see the counterexample.) -/
theorem modelGet_allow_none (reg : Reg) (l : List ℚ)
    (entries : List (Option Nat)) (dflt : ℚ)
    (hreg : ∀ b : Nat, some b ∈ entries → b ∈ reg)
    (hlen : l.length = reg.length) :
    (none ∈ entries →
      modelGet reg (.plist l) (.seq entries) false dflt =
        .error "KeyError: None not allowed in uid or idx") ∧
    modelGet reg (.plist l) (.seq entries) true dflt =
      .ok (.arr (entries.map (fun o => match o with
        | some b => l.getD (reg.indexOf b) 0
        | none => dflt))) := by
  have hres := seqResolve_ok hreg
  have hcont : (none ∈ entries.map (Option.map (fun b => reg.indexOf b)))
      ↔ none ∈ entries := by
    simp [List.mem_map]
  constructor
  · intro hn
    simp [modelGet, idx2uid, hres, hcont, hn]
  · simp [modelGet, idx2uid, hres,
      listPick_map_ok l dflt reg entries hreg (le_of_eq hlen.symm)]

/-- C5 counterexample: once the attribute array has been materialized
as a numpy array, the `allow_none`/`default` branch of `Model.get` is
skipped (it is guarded by `isinstance(..., list)`) and the call falls
through to numpy fancy indexing, which rejects the `None` entry — so
`get('p', [10, None], allow_none=True, default=0.0)` raises instead of
returning `[<value at 10>, 0.0]`. -/
theorem modelGet_allow_none_ndarray_counterexample :
    modelGet [10] (.ndarray [5]) (.seq [some 10, none]) true 0 =
      .error "IndexError: only integers are valid indices" ∧
    ¬ modelGet [10] (.ndarray [5]) (.seq [some 10, none]) true 0 =
      .ok (.arr [5, 0]) ∧
    modelGet [10] (.plist [5]) (.seq [some 10, none]) true 0 =
      .ok (.arr [5, 0]) := by
  refine ⟨by decide, by decide, by decide⟩

/-- C5 witness: Scenario C on a list-stored attribute with registered
identifier `10` holding value `5`: `allow_none=True` substitutes the
default, `allow_none=False` raises. -/
theorem modelGet_allow_none_spot :
    modelGet [10] (.plist [5]) (.seq [some 10, none]) true 0 = .ok (.arr [5, 0]) ∧
    modelGet [10] (.plist [5]) (.seq [some 10, none]) false 0 =
      .error "KeyError: None not allowed in uid or idx" := by
  have h := modelGet_allow_none [10] [5] [some 10, none] 0
    (by intro b hb; simp at hb ⊢; omega) (by decide)
  exact ⟨h.2.trans (by decide), h.1 (by decide)⟩

/-! ## C1 — PTDF column partition of `MatProcessor.make` -/

theorem busIdx2uid_ok {reg : Reg} {l : List Nat} (h : ∀ a ∈ l, a ∈ reg) :
    busIdx2uid reg l = .ok (l.map (fun a => reg.indexOf a)) := by
  induction l with
  | nil => rfl
  | cons a rest ih =>
    have ha : a ∈ reg := h a (List.mem_cons_self _ _)
    simp [busIdx2uid, oneIdx2uid_ok ha,
      ih (fun b hb => h b (List.mem_cons_of_mem _ hb))]

theorem map_indexOf_self (l : List Nat) (h : l.Nodup) :
    l.map (fun a => l.indexOf a) = List.range l.length := by
  induction l with
  | nil => rfl
  | cons b t ih =>
    rw [List.nodup_cons] at h
    obtain ⟨hb, ht⟩ := h
    have hcongr : t.map (fun a => (b :: t).indexOf a)
        = t.map (fun a => (t.indexOf a).succ) := by
      apply List.map_congr_left
      intro a hat
      exact List.indexOf_cons_ne _ (fun e => hb (by rw [e]; exact hat))
    calc (b :: t).map (fun a => (b :: t).indexOf a)
        = (b :: t).indexOf b :: t.map (fun a => (b :: t).indexOf a) := by simp
      _ = 0 :: t.map (fun a => (t.indexOf a).succ) := by
          rw [List.indexOf_cons_self, hcongr]
      _ = 0 :: (t.map (fun a => t.indexOf a)).map Nat.succ := by rw [List.map_map]; rfl
      _ = 0 :: (List.range t.length).map Nat.succ := by rw [ih ht]
      _ = List.range (t.length + 1) := (List.range_succ_eq_map t.length).symm
      _ = List.range (b :: t).length := rfl

theorem perm_gen_split (allBus genBus : List Nat) (hA : allBus.Nodup)
    (hG : genBus.Nodup) (hsub : ∀ b ∈ genBus, b ∈ allBus) :
    allBus.Perm (genBus ++ allBus.filter (fun b => !(decide (b ∈ genBus)))) := by
  apply List.perm_of_nodup_nodup_toFinset_eq hA
  · refine List.Nodup.append hG (hA.filter _) ?_
    intro x hx hx'
    have hp := List.of_mem_filter hx'
    simp at hp
    exact hp hx
  · ext x
    simp only [List.mem_toFinset, List.mem_append, List.mem_filter,
      Bool.not_eq_true', decide_eq_false_iff_not]
    constructor
    · intro hx
      by_cases hg : x ∈ genBus
      · exact Or.inl hg
      · exact Or.inr ⟨hx, hg⟩
    · rintro (hg | ⟨hx, _⟩)
      · exact hsub x hg
      · exact hx

/-- C1, amended: provided no two generators share a bus (the
generator-bus list has no repeats — with repeats a column is duplicated,
see the counterexample) and every generator bus is present in the bus
table, `MatProcessor.make` partitions the PTDF columns exactly: the
generation-bearing block takes the columns of the generator buses in
the caller-supplied `StaticGen`-order list, the all-other block takes
the remaining columns in bus-table order, and together the selected
column indices are a permutation of all column indices — so the two
column slices, reordered to the original bus order, reconstruct the
full (n-lines, n-buses) PTDF with no column duplicated or dropped. -/
theorem makePartition_complete (allBus genBus : List Nat) (cols : Nat → List ℚ)
    (hA : allBus.Nodup) (hG : genBus.Nodup) (hsub : ∀ b ∈ genBus, b ∈ allBus) :
    makePartition allBus genBus =
      .ok (genBus.map (fun a => allBus.indexOf a),
           (allBus.filter (fun b => !(decide (b ∈ genBus)))).map
             (fun a => allBus.indexOf a)) ∧
    ((genBus.map (fun a => allBus.indexOf a)) ++
      (allBus.filter (fun b => !(decide (b ∈ genBus)))).map
        (fun a => allBus.indexOf a)).Perm (List.range allBus.length) ∧
    (colSlice cols (genBus.map (fun a => allBus.indexOf a)) ++
      colSlice cols ((allBus.filter (fun b => !(decide (b ∈ genBus)))).map
        (fun a => allBus.indexOf a))).Perm
      ((List.range allBus.length).map cols) := by
  have hfilter : ∀ a ∈ allBus.filter (fun b => !(decide (b ∈ genBus))), a ∈ allBus :=
    fun a ha => List.mem_of_mem_filter ha
  have h1 := busIdx2uid_ok hsub
  have h2 := busIdx2uid_ok hfilter
  have hperm : ((genBus ++ allBus.filter (fun b => !(decide (b ∈ genBus)))).map
      (fun a => allBus.indexOf a)).Perm (List.range allBus.length) := by
    have hp := (perm_gen_split allBus genBus hA hG hsub).symm.map
      (fun a => allBus.indexOf a)
    rw [map_indexOf_self allBus hA] at hp
    exact hp
  refine ⟨?_, ?_, ?_⟩
  · simp [makePartition, h1, h2]
  · simpa [← List.map_append] using hperm
  · have h3 := hperm.map cols
    simp only [List.map_append] at h3
    simpa [colSlice] using h3

/-- C1 counterexample: two generators on the same bus (bus table
`[0, 1, 2]`, generator buses `[1, 1]`).  `make` duplicates the column of
bus 1: the two blocks select columns `[1, 1]` and `[0, 2]`, four columns
for a three-bus PTDF, so no reordering of the concatenation reconstructs
the full matrix. -/
theorem makePartition_duplicate_counterexample :
    makePartition [0, 1, 2] [1, 1] = .ok ([1, 1], [0, 2]) ∧
    ¬ (([1, 1] ++ [0, 2]).Perm (List.range 3)) ∧
    ([1, 1] ++ [0, 2]).count 1 = 2 := by
  refine ⟨by decide, by decide, by decide⟩

/-- C1 witness: Scenario B shape — buses `[0, 1, 2]`, one generator on
bus 1: blocks `[1]` and `[0, 2]`, together a permutation of all three
columns. -/
theorem makePartition_complete_spot :
    makePartition [0, 1, 2] [1] = .ok ([1], [0, 2]) ∧
    (([1] ++ [0, 2]).Perm (List.range 3)) := by
  have h := makePartition_complete [0, 1, 2] [1] (fun _ => [])
    (by decide) (by decide) (by intro b hb; simp at hb ⊢; omega)
  exact ⟨h.1.trans (by decide), by decide⟩

/-! ## C7 — single-path resolution priority of `RParam.v` -/

/-- C7: a parameter reference resolves through exactly one path,
priority explicit over group over single: an externally set value is
returned verbatim whatever the owner flags say; otherwise a group
reference concatenates the member collections' arrays in
group-registration order; otherwise the single owner's source attribute
array is read. -/
theorem rparam_resolution_priority (p : RParam) :
    (p.is_set = true → RParam.v p = p.vSet) ∧
    (p.is_set = false → p.is_group = true →
      RParam.v p = (p.ownerGroup.members.map (fun c => c.attrs p.src)).flatten) ∧
    (p.is_set = false → p.is_group = false →
      RParam.v p = p.ownerModel.attrs p.src) := by
  refine ⟨fun h => ?_, fun h1 h2 => ?_, fun h1 h2 => ?_⟩ <;>
    simp [RParam.v, Group.getConcat, *]

/-- C7 witness: the three resolution paths on concrete references — an
explicit value wins over a group owner; a group reference concatenates
two member collections; a single-owner reference reads the bound
attribute array. -/
theorem rparam_resolution_priority_spot :
    RParam.v ⟨"p", true, [7], true, ⟨[⟨fun _ => [1, 2]⟩]⟩, ⟨fun _ => [9]⟩⟩ = [7] ∧
    RParam.v ⟨"p", false, [7], true, ⟨[⟨fun _ => [1, 2]⟩, ⟨fun _ => [3]⟩]⟩,
      ⟨fun _ => [9]⟩⟩ = [1, 2, 3] ∧
    RParam.v ⟨"p", false, [7], false, ⟨[⟨fun _ => [1, 2]⟩]⟩, ⟨fun _ => [9]⟩⟩ = [9] :=
  ⟨(rparam_resolution_priority _).1 rfl,
   ((rparam_resolution_priority _).2.1 rfl rfl).trans rfl,
   (rparam_resolution_priority _).2.2 rfl rfl⟩

/-! ## C2 — `run` lifecycle -/

/-- C2: for both `DCPFlowBase.run` and `ACOPFBase.run` (given that the
variable write-back loop resolves), `setup()` is invoked exactly when
the routine is not yet set up, the elapsed time is recorded into
`exec_time`, `exit_code` becomes 0 on reported solver success and 1
otherwise, `unpack` runs unconditionally — the device collections hold
the unpacked solver values even when the solver reported failure — and
the run reports success/failure: the DC routine returns the boolean
success flag, the AC routine returns the 0/1 exit code. -/
theorem run_lifecycle (comps : List (String × Comp))
    (vals : String → String → List ℚ) (vars : List VarDecl)
    (res : SolverOut) (t : ℚ) (r : Routine)
    (ws : List (String × List ℚ)) (warns : List String)
    (hok : unpackVars comps vals vars = .ok (ws, warns)) :
    DCPF_run comps vals vars res t r =
      .ok ({ is_setup := true,
             setupCalls := r.setupCalls + (if r.is_setup then 0 else 1),
             exit_code := if res.success then 0 else 1,
             exec_time := t,
             objv := r.objv,
             sys := { unpackDevices res r.sys with recent := some "DCPF" } },
           res.success) ∧
    ACOPF_run comps vals vars res t r =
      .ok ({ is_setup := true,
             setupCalls := r.setupCalls + (if r.is_setup then 0 else 1),
             exit_code := if res.success then 0 else 1,
             exec_time := t,
             objv := res.f,
             sys := { unpackDevices res r.sys with recent := some "ACOPF" } },
           if res.success then 0 else 1) := by
  obtain ⟨rsetup, rcalls, rcode, rtime, robj, rsys⟩ := r
  constructor <;>
  · cases rsetup <;> cases hs : res.success <;>
      simp [DCPF_run, ACOPF_run, DCPF_unpack, ACOPF_unpack, setupR, hok, hs]

/-- C2 witness: an unset-up routine run on a failed solver result:
exit code 1, setup invoked once, device arrays overwritten with the
returned (infeasible) values, `False`-like returns. -/
theorem run_lifecycle_spot :
    DCPF_run [] (fun _ _ => []) [] ⟨100, [1], [30], [200, 300], [0, 0], false, 5⟩ 2
      ⟨false, 0, 0, 0, 0, ⟨[9], [9], [9], [9], [9], [9], 1, none⟩⟩ =
      .ok (⟨true, 1, 1, 2, 0,
            ⟨[1], [30 * deg2rad], [300 / 100], [0 / 100], [200 / 100], [0 / 100],
             1, some "DCPF"⟩⟩, false) ∧
    ACOPF_run [] (fun _ _ => []) [] ⟨100, [1], [30], [200, 300], [0, 0], false, 5⟩ 2
      ⟨false, 0, 0, 0, 0, ⟨[9], [9], [9], [9], [9], [9], 1, none⟩⟩ =
      .ok (⟨true, 1, 1, 2, 5,
            ⟨[1], [30 * deg2rad], [300 / 100], [0 / 100], [200 / 100], [0 / 100],
             1, some "ACOPF"⟩⟩, 1) := by
  have h := run_lifecycle [] (fun _ _ => []) []
    ⟨100, [1], [30], [200, 300], [0, 0], false, 5⟩ 2
    ⟨false, 0, 0, 0, 0, ⟨[9], [9], [9], [9], [9], [9], 1, none⟩⟩ [] [] rfl
  exact ⟨h.1, h.2⟩

/-! ## C6 — unpack numeric semantics -/

/-- C6: the device-write block of `unpack` copies the solver's bus
voltage magnitudes verbatim and its bus angles converted to radians
into the Bus collection, divides the megawatt-base generator active and
reactive power columns by the result's base power, and splits the
generator array in solver output order: row `i < Slack.n` lands at
Slack position `i`, row `Slack.n + j` lands at PV position `j`, and the
two parts cover the whole generator array. -/
theorem unpack_numeric_semantics (res : SolverOut) (s : SysState)
    (hn : s.slackN ≤ res.genP.length) :
    (unpackDevices res s).busV = res.busVm ∧
    (∀ i : Nat, (unpackDevices res s).busA[i]? =
      (res.busVa[i]?).map (fun x => x * deg2rad)) ∧
    (∀ i : Nat, i < s.slackN → (unpackDevices res s).slackP[i]? =
      (res.genP[i]?).map (fun x => x / res.baseMVA)) ∧
    (∀ j : Nat, (unpackDevices res s).pvP[j]? =
      (res.genP[s.slackN + j]?).map (fun x => x / res.baseMVA)) ∧
    (∀ i : Nat, i < s.slackN → (unpackDevices res s).slackQ[i]? =
      (res.genQ[i]?).map (fun x => x / res.baseMVA)) ∧
    (∀ j : Nat, (unpackDevices res s).pvQ[j]? =
      (res.genQ[s.slackN + j]?).map (fun x => x / res.baseMVA)) ∧
    (unpackDevices res s).slackP.length + (unpackDevices res s).pvP.length =
      res.genP.length := by
  refine ⟨rfl, ?_, ?_, ?_, ?_, ?_, ?_⟩
  · intro i
    simp [unpackDevices, List.getElem?_map]
  · intro i hi
    simp [unpackDevices, List.getElem?_map, List.getElem?_take, hi]
  · intro j
    simp [unpackDevices, List.getElem?_map, List.getElem?_drop]
  · intro i hi
    simp [unpackDevices, List.getElem?_map, List.getElem?_take, hi]
  · intro j
    simp [unpackDevices, List.getElem?_map, List.getElem?_drop]
  · simp [unpackDevices]
    omega

/-- C6 witness: base power 100, one slack generator, generator rows
`[200, 50]`: slack gets `2`, PV gets `1/2`, bus data copied and the
angle converted. -/
theorem unpack_numeric_semantics_spot :
    (unpackDevices ⟨100, [1], [30], [200, 50], [10, 20], true, 0⟩
        ⟨[], [], [], [], [], [], 1, none⟩).slackP[0]? = some 2 ∧
    (unpackDevices ⟨100, [1], [30], [200, 50], [10, 20], true, 0⟩
        ⟨[], [], [], [], [], [], 1, none⟩).pvP[0]? = some (1/2) := by
  have h := unpack_numeric_semantics ⟨100, [1], [30], [200, 50], [10, 20], true, 0⟩
    ⟨[], [], [], [], [], [], 1, none⟩ (by decide)
  refine ⟨(h.2.2.1 0 (by decide)).trans ?_, (h.2.2.2.1 0).trans ?_⟩ <;>
    · show some _ = some _
      norm_num

/-! ## C8 — resilience of the variable write-back loop -/

/-- Statement vocabulary: the owner lookups performed by the loop for
this variable all succeed (the `owner_name` attribute exists, and a
Model owner's group attribute exists on the system). -/
def ownerResolvable (comps : List (String × Comp)) (v : VarDecl) : Bool :=
  match comps.lookup v.owner_name with
  | some (.model grp) => (comps.lookup grp).isSome
  | some _ => true
  | none => false

/-- Statement vocabulary: the loop writes this variable back — its owner
is a Model or Group and a source attribute is declared. -/
def varWritten (comps : List (String × Comp)) (v : VarDecl) : Bool :=
  match comps.lookup v.owner_name, v.src with
  | some (.model _), some _ => true
  | some .group, some _ => true
  | _, _ => false

/-- Statement vocabulary: the loop skips this variable with a warning —
its owner resolves but supports neither Model-style nor Group-style
index resolution. -/
def varSkippedWarn (comps : List (String × Comp)) (v : VarDecl) : Bool :=
  match comps.lookup v.owner_name, v.src with
  | some .plain, some _ => true
  | _, _ => false

/-- C8, amended: when every declared variable's owner-name lookups
succeed on the system, the write-back loop never raises: a variable
whose owner supports neither model-style nor group-style index
resolution is skipped with a warning, one whose `src` is `None` is
skipped silently, and every variable whose source resolves is written
back, in declaration order.  (A variable whose `owner_name` is not an
attribute of the system aborts `unpack` with `AttributeError` instead
of being skipped: see the counterexample.) -/
theorem unpackVars_resilient (comps : List (String × Comp))
    (vals : String → String → List ℚ) (vars : List VarDecl)
    (h : ∀ v ∈ vars, ownerResolvable comps v = true) :
    unpackVars comps vals vars = .ok
      ((vars.filter (fun v => varWritten comps v)).map
        (fun v => (v.name, vals v.owner_name (v.src.getD ""))),
       (vars.filter (fun v => varSkippedWarn comps v)).map
        (fun v => "skip unpacking " ++ v.name)) := by
  induction vars with
  | nil => rfl
  | cons v rest ih =>
    have hv := h v (List.mem_cons_self _ _)
    have hrest := ih (fun w hw => h w (List.mem_cons_of_mem _ hw))
    unfold ownerResolvable at hv
    cases hlk : comps.lookup v.owner_name with
    | none => rw [hlk] at hv; exact absurd hv (by simp)
    | some comp =>
      rw [hlk] at hv
      cases hsrc : v.src with
      | none =>
        cases comp with
        | model grp =>
          obtain ⟨gc, hgc⟩ := Option.isSome_iff_exists.mp hv
          simp [unpackVars, hlk, hsrc, hgc, varWritten, varSkippedWarn,
            List.filter_cons, hrest]
        | group =>
          simp [unpackVars, hlk, hsrc, varWritten, varSkippedWarn,
            List.filter_cons, hrest]
        | plain =>
          simp [unpackVars, hlk, hsrc, varWritten, varSkippedWarn,
            List.filter_cons, hrest]
      | some srcName =>
        cases comp with
        | model grp =>
          obtain ⟨gc, hgc⟩ := Option.isSome_iff_exists.mp hv
          simp [unpackVars, hlk, hsrc, hgc, varWritten, varSkippedWarn,
            List.filter_cons, hrest]
        | group =>
          simp [unpackVars, hlk, hsrc, varWritten, varSkippedWarn,
            List.filter_cons, hrest]
        | plain =>
          simp [unpackVars, hlk, hsrc, varWritten, varSkippedWarn,
            List.filter_cons, hrest]

/-- C8 counterexample: a variable whose `owner_name` (`"Ghost"`) is not
an attribute of the system makes `getattr(system, owner_name)` raise
`AttributeError`, aborting the loop — it is not skipped with a warning,
and the later resolvable variable `x2` is never written. -/
theorem unpackVars_missing_owner_counterexample :
    unpackVars [("Bus", .group)] (fun _ _ => [])
      [⟨"x1", "Ghost", some "p"⟩, ⟨"x2", "Bus", some "v"⟩] =
      .error "AttributeError: system has no attribute Ghost" := by
  rfl

/-- C8 witness: a system with a Group owner, a Model owner whose group
resolves, and an owner with neither; the plain-owner variable is warned
and skipped, the `src`-less variable is skipped silently, the rest are
written in order. -/
theorem unpackVars_resilient_spot :
    unpackVars
      [("Bus", .group), ("PV", .model "Gen"), ("Gen", .group), ("Odd", .plain)]
      (fun owner src => if owner = "PV" && src = "p" then [7] else [1])
      [⟨"pg", "PV", some "p"⟩, ⟨"bad", "Odd", some "q"⟩,
       ⟨"nosrc", "Bus", none⟩, ⟨"aBus", "Bus", some "a"⟩] =
      .ok ([("pg", [7]), ("aBus", [1])], ["skip unpacking bad"]) := by
  have h := unpackVars_resilient
    [("Bus", .group), ("PV", .model "Gen"), ("Gen", .group), ("Odd", .plain)]
    (fun owner src => if owner = "PV" && src = "p" then [7] else [1])
    [⟨"pg", "PV", some "p"⟩, ⟨"bad", "Odd", some "q"⟩,
     ⟨"nosrc", "Bus", none⟩, ⟨"aBus", "Bus", some "a"⟩]
    (by decide)
  exact h.trans (by decide)

/-! ## C3 — array identity across `unpack` writes -/

/-- C3: evaluation of the `unpack` device write at a concrete failing
input.  Start from a heap whose cell 0 holds the old bus-voltage array
`[1]` and an attribute slot at handle 0; the `unpack` assignment of the
new result array `[2]` REBINDS the slot to a fresh cell: the array
identity changes (handle 0 becomes handle 1), a view borrowed before
the write still reads the stale `[1]`, and only a read that re-fetches
the owner's current attribute (as the `RParam.v` property does on every
access) observes `[2]`.  Under the documented in-place contract of
`Model.list2array` the handle would be preserved and the borrowed view
would observe `[2]`. -/
theorem unpack_rebind_breaks_identity :
    (unpackAttrAssign ⟨fun k => if k = 0 then [1] else [], 1⟩ ⟨0⟩ [2]).2.handle = 1 ∧
    ¬ (unpackAttrAssign ⟨fun k => if k = 0 then [1] else [], 1⟩ ⟨0⟩ [2]).2.handle = 0 ∧
    rparamHeapRead (unpackAttrAssign ⟨fun k => if k = 0 then [1] else [], 1⟩ ⟨0⟩ [2]).1
      (unpackAttrAssign ⟨fun k => if k = 0 then [1] else [], 1⟩ ⟨0⟩ [2]).2 = [2] ∧
    borrowedRead (unpackAttrAssign ⟨fun k => if k = 0 then [1] else [], 1⟩ ⟨0⟩ [2]).1 0
      = [1] ∧
    ¬ ([1] : List ℚ) = [2] ∧
    (inPlaceAssign ⟨fun k => if k = 0 then [1] else [], 1⟩ ⟨0⟩ [2]).2.handle = 0 ∧
    borrowedRead (inPlaceAssign ⟨fun k => if k = 0 then [1] else [], 1⟩ ⟨0⟩ [2]).1 0
      = [2] := by
  refine ⟨rfl, by decide, rfl, rfl, by decide, rfl, rfl⟩

/-! ## C10 — frame effect of the unit-commitment initial guess -/

theorem sorted_take_drop {l : List GenRow} (h : List.Sorted wLE l) (k : Nat) :
    ∀ a ∈ l.take k, ∀ b ∈ l.drop k, wLE a b := by
  have hp : List.Pairwise wLE (l.take k ++ l.drop k) := by
    rw [List.take_append_drop]; exact h
  exact (List.pairwise_append.mp hp).2.2

/-- C10: when some PV generator is already offline (`u = 0`),
`_initial_guess` returns `True` having modified nothing at all; when
every PV generator is online it returns `True` and modifies exactly the
commitment attribute `u` of the `int(0.3*n)` selected generators — a
set of minimal weighted cost-and-capacity score — setting it to 0,
while every other field of every PV row, the Slack generators and every
other collection stay unchanged. -/
theorem initialGuess_frame (s : UCSys)
    (hnodup : (s.pv.map (fun g => g.idx)).Nodup)
    (hdisj : ∀ g ∈ s.slack, ¬ g.idx ∈ ucChosen s) :
    ((∃ g ∈ s.pv, g.u = 0) → initialGuess s = (s, true)) ∧
    ((∀ g ∈ s.pv, ¬ g.u = 0) →
      (initialGuess s).2 = true ∧
      (initialGuess s).1.slack = s.slack ∧
      (initialGuess s).1.othersLoad = s.othersLoad ∧
      (ucChosen s).length = 3 * s.pv.length / 10 ∧
      (∀ i : Nat,
        ((initialGuess s).1.pv[i]?).map (fun g => g.idx) =
          (s.pv[i]?).map (fun g => g.idx) ∧
        ((initialGuess s).1.pv[i]?).map (fun g => g.Sn) =
          (s.pv[i]?).map (fun g => g.Sn) ∧
        ((initialGuess s).1.pv[i]?).map (fun g => g.c2) =
          (s.pv[i]?).map (fun g => g.c2) ∧
        ((initialGuess s).1.pv[i]?).map (fun g => g.c1) =
          (s.pv[i]?).map (fun g => g.c1) ∧
        ((initialGuess s).1.pv[i]?).map (fun g => g.c0) =
          (s.pv[i]?).map (fun g => g.c0) ∧
        ((initialGuess s).1.pv[i]?).map (fun g => g.bus) =
          (s.pv[i]?).map (fun g => g.bus) ∧
        ((initialGuess s).1.pv[i]?).map (fun g => g.zone) =
          (s.pv[i]?).map (fun g => g.zone) ∧
        ((initialGuess s).1.pv[i]?).map (fun g => g.u) =
          (s.pv[i]?).map (fun g => if g.idx ∈ ucChosen s then 0 else g.u)) ∧
      (∀ g ∈ s.pv, g.idx ∈ ucChosen s → ∀ g2 ∈ s.pv, ¬ g2.idx ∈ ucChosen s →
        wsum g ≤ wsum g2)) := by
  constructor
  · rintro ⟨g, hg, hu⟩
    have hany : s.pv.any (fun g => decide (g.u = 0)) = true :=
      List.any_eq_true.mpr ⟨g, hg, by simp [hu]⟩
    simp [initialGuess, hany]
  · intro hall
    have hany : s.pv.any (fun g => decide (g.u = 0)) = false :=
      List.any_eq_false.mpr (fun g hg => by simp [hall g hg])
    have hig : initialGuess s =
        ({ s with pv := staticGenSetU0 s.pv (ucChosen s),
                  slack := staticGenSetU0 s.slack (ucChosen s) }, true) := by
      simp [initialGuess, hany]
    refine ⟨by rw [hig], ?_, by rw [hig], ?_, ?_, ?_⟩
    · rw [hig]
      show staticGenSetU0 s.slack (ucChosen s) = s.slack
      unfold staticGenSetU0
      rw [List.map_congr_left (fun g hg => if_neg (hdisj g hg)), List.map_id']
    · have hlen : (ucSorted s).length = s.pv.length :=
        List.length_insertionSort wLE s.pv
      have hk : ucK s ≤ s.pv.length := by
        unfold ucK; omega
      simp [ucChosen, List.length_take, hlen]
      unfold ucK
      omega
    · intro i
      rw [hig]
      cases hgi : s.pv[i]? with
      | none => simp [staticGenSetU0, List.getElem?_map, hgi]
      | some g =>
        by_cases hc : g.idx ∈ ucChosen s <;>
          simp [staticGenSetU0, List.getElem?_map, hgi, hc]
    · intro g hg hgin g2 hg2 hg2nin
      have hperm : (ucSorted s).Perm s.pv := List.perm_insertionSort wLE s.pv
      have hsorted : List.Sorted wLE (ucSorted s) := List.sorted_insertionSort wLE s.pv
      obtain ⟨g0, hg0mem, hg0idx⟩ := List.mem_map.mp hgin
      have hg0pv : g0 ∈ s.pv := hperm.mem_iff.mp (List.mem_of_mem_take hg0mem)
      have hgeq : g0 = g := List.inj_on_of_nodup_map hnodup hg0pv hg hg0idx
      have hgtake : g ∈ (ucSorted s).take (ucK s) := hgeq ▸ hg0mem
      have hg2nottake : ¬ g2 ∈ (ucSorted s).take (ucK s) :=
        fun hmem => hg2nin (List.mem_map.mpr ⟨g2, hmem, rfl⟩)
      have hg2drop : g2 ∈ (ucSorted s).drop (ucK s) := by
        have hmem : g2 ∈ (ucSorted s).take (ucK s) ++ (ucSorted s).drop (ucK s) := by
          rw [List.take_append_drop]; exact hperm.mem_iff.mpr hg2
        rcases List.mem_append.mp hmem with h1 | h1
        · exact absurd h1 hg2nottake
        · exact h1
      exact sorted_take_drop hsorted (ucK s) g hgtake g2 hg2drop

/-- C10 witness: a fleet with one offline PV generator is returned
untouched; an all-online fleet keeps its Slack rows, its load stand-in
and (here `int(0.3*1) = 0` generators are turned off) its commitment
column unchanged. -/
theorem initialGuess_frame_spot :
    initialGuess ⟨[⟨1, 0, 10, 0, 0, 0, 0, 0⟩], [], []⟩ =
      (⟨[⟨1, 0, 10, 0, 0, 0, 0, 0⟩], [], []⟩, true) ∧
    (initialGuess ⟨[⟨1, 1, 10, 0, 0, 0, 0, 0⟩], [⟨9, 1, 5, 0, 0, 0, 0, 0⟩],
        [3]⟩).1.slack = [⟨9, 1, 5, 0, 0, 0, 0, 0⟩] ∧
    ((initialGuess ⟨[⟨1, 1, 10, 0, 0, 0, 0, 0⟩], [⟨9, 1, 5, 0, 0, 0, 0, 0⟩],
        [3]⟩).1.pv[0]?).map (fun g => g.u) = some 1 := by
  have hA := initialGuess_frame ⟨[⟨1, 0, 10, 0, 0, 0, 0, 0⟩], [], []⟩
    (by decide) (by decide)
  have hB := initialGuess_frame
    ⟨[⟨1, 1, 10, 0, 0, 0, 0, 0⟩], [⟨9, 1, 5, 0, 0, 0, 0, 0⟩], [3]⟩
    (by decide) (by decide)
  have hBall := hB.2 (by decide)
  exact ⟨hA.1 (by decide), hBall.2.1,
    ((hBall.2.2.2.2.1 0).2.2.2.2.2.2.2).trans (by decide)⟩

end AMS
